import Mathlib

/-!
Verification of the rx-player bandwidth estimator (`BandwidthEstimator`)
and of the public `Player` API class.

The definitions below are a shallow embedding of the two provided source
files: the `BandwidthEstimator` class and the `Player` class. JavaScript
numbers are modelled as rationals, nullable references as `Option` values
or `Bool` presence flags, thrown exceptions as `Except JsError`, and every
observable emission (`EventEmitter.trigger`, `Subject.next`, ...) as an
element of an explicit event list returned alongside the updated state.
-/

namespace RxPlayer

/-- Modelled from the spec: the `EWMA` class (`ewma.ts`) is imported by the
bandwidth estimator but is not among the provided sources. Following the
spec it keeps `(alpha, totalWeight, weightedSum)`. The real-number
exponential `alpha ^ weight` is abstracted as an explicit `pow` argument of
the operations below, since it is not rational-valued in general. -/
structure EWMA where
  alpha : ℚ
  totalWeight : ℚ
  weightedSum : ℚ
deriving DecidableEq

/-- Modelled from the spec: a fresh EWMA carries no accumulated weight. -/
def EWMA.new (alpha : ℚ) : EWMA := ⟨alpha, 0, 0⟩

/-- Modelled from the spec: `totalWeight += weight`;
`adjAlpha = alpha^weight`;
`weightedSum = adjAlpha * weightedSum + (1 - adjAlpha) * value`. -/
def EWMA.addSample (pow : ℚ → ℚ → ℚ) (e : EWMA) (weight value : ℚ) : EWMA :=
  let adjAlpha := pow e.alpha weight
  { e with totalWeight := e.totalWeight + weight,
           weightedSum := adjAlpha * e.weightedSum + (1 - adjAlpha) * value }

/-- Modelled from the spec: the debiased estimate
`weightedSum / (1 - alpha^totalWeight)`. -/
def EWMA.getEstimate (pow : ℚ → ℚ → ℚ) (e : EWMA) : ℚ :=
  e.weightedSum / (1 - pow e.alpha e.totalWeight)

/-- Configuration constants read by the bandwidth estimator from the
`config` module (`ABR_MINIMUM_TOTAL_BYTES`, `ABR_MINIMUM_CHUNK_SIZE`,
`ABR_FAST_EMA`, `ABR_SLOW_EMA`). The config module is outside the provided
sources, so the development is parametric in these values. -/
structure BandwidthEstimatorConfig where
  minTotalBytes : ℚ
  minChunkBytes : ℚ
  fastEma : ℚ
  slowEma : ℚ
deriving DecidableEq

/-- State of a `BandwidthEstimator` instance: fast and slow EWMAs, the
cumulative number of bytes sampled, the low-latency flag, and the buffer of
the last (at most three) low-latency chunk bandwidths. -/
structure BandwidthEstimator where
  fastEWMA : EWMA
  slowEWMA : EWMA
  bytesSampled : ℚ
  lowLatencyMode : Bool
  lowLatencyBandwidthBuffer : List ℚ
deriving DecidableEq

/-- The `BandwidthEstimator` constructor. -/
def BandwidthEstimator.new (c : BandwidthEstimatorConfig) (lowLatencyMode : Bool) :
    BandwidthEstimator :=
  { fastEWMA := EWMA.new c.fastEma,
    slowEWMA := EWMA.new c.slowEma,
    bytesSampled := 0,
    lowLatencyMode := lowLatencyMode,
    lowLatencyBandwidthBuffer := [] }

/-- `getLowLatencyBandwidth`: `undefined` while the buffer holds fewer than
three entries, otherwise the arithmetic mean of the buffer. -/
def BandwidthEstimator.getLowLatencyBandwidth (e : BandwidthEstimator) : Option ℚ :=
  if e.lowLatencyBandwidthBuffer.length < 3 then none
  else some (e.lowLatencyBandwidthBuffer.sum / (e.lowLatencyBandwidthBuffer.length : ℚ))

/-- The `push` / conditional `shift` pair of `addSample`: append the new
bandwidth and drop the oldest entry when the buffer exceeds three items. -/
def BandwidthEstimator.pushBandwidth (e : BandwidthEstimator) (bandwidth : ℚ) :
    BandwidthEstimator :=
  let buffer := e.lowLatencyBandwidthBuffer ++ [bandwidth]
  { e with lowLatencyBandwidthBuffer := if buffer.length > 3 then buffer.tail else buffer }

/-- The part of `addSample` after the chunk handling: drop the sample when
it is smaller than `ABR_MINIMUM_CHUNK_SIZE`, otherwise account the bytes
and feed both EWMAs with weight `durationInMs / 1000`. -/
def BandwidthEstimator.sampleBandwidth (c : BandwidthEstimatorConfig) (pow : ℚ → ℚ → ℚ)
    (e : BandwidthEstimator) (durationInMs numberOfBytes bandwidth : ℚ) :
    BandwidthEstimator :=
  if numberOfBytes < c.minChunkBytes then e
  else
    let weight := durationInMs / 1000
    { e with bytesSampled := e.bytesSampled + numberOfBytes,
             fastEWMA := e.fastEWMA.addSample pow weight bandwidth,
             slowEWMA := e.slowEWMA.addSample pow weight bandwidth }

/-- `BandwidthEstimator.addSample(durationInMs, numberOfBytes, isChunk)`:
computes `bandwidth = numberOfBytes * 8000 / durationInMs`; for a chunk in
low-latency mode, returns early (rejecting the sample entirely) when the
buffer mean `lastBandwidth` is defined and
`lastBandwidth * 0.8 < bandwidth <= lastBandwidth`, otherwise pushes the
bandwidth onto the buffer; then proceeds with the EWMA update. -/
def BandwidthEstimator.addSample (c : BandwidthEstimatorConfig) (pow : ℚ → ℚ → ℚ)
    (e : BandwidthEstimator) (durationInMs numberOfBytes : ℚ) (isChunk : Bool) :
    BandwidthEstimator :=
  let bandwidth := numberOfBytes * 8000 / durationInMs
  if isChunk && e.lowLatencyMode then
    match e.getLowLatencyBandwidth with
    | some lastBandwidth =>
        if lastBandwidth * (8/10) < bandwidth ∧ bandwidth ≤ lastBandwidth then
          e
        else
          BandwidthEstimator.sampleBandwidth c pow (e.pushBandwidth bandwidth)
            durationInMs numberOfBytes bandwidth
    | none =>
        BandwidthEstimator.sampleBandwidth c pow (e.pushBandwidth bandwidth)
          durationInMs numberOfBytes bandwidth
  else
    BandwidthEstimator.sampleBandwidth c pow e durationInMs numberOfBytes bandwidth

/-- `BandwidthEstimator.getEstimate(bandwidthMayBeServerLimited)`. -/
def BandwidthEstimator.getEstimate (c : BandwidthEstimatorConfig) (pow : ℚ → ℚ → ℚ)
    (e : BandwidthEstimator) (bandwidthMayBeServerLimited : Bool) : Option ℚ :=
  let regularEstimate : Option ℚ :=
    if e.bytesSampled < c.minTotalBytes then none
    else some (min (e.fastEWMA.getEstimate pow) (e.slowEWMA.getEstimate pow))
  if !e.lowLatencyMode || !bandwidthMayBeServerLimited then regularEstimate
  else
    match e.getLowLatencyBandwidth with
    | none => regularEstimate
    | some lowLatencyBandwidthEstimate =>
        match regularEstimate with
        | none => some lowLatencyBandwidthEstimate
        | some r => some (max lowLatencyBandwidthEstimate r)

/-- `BandwidthEstimator.reset()`: rebuild both EWMAs and zero
`bytesSampled`; the low-latency buffer and flag are untouched. -/
def BandwidthEstimator.reset (c : BandwidthEstimatorConfig) (e : BandwidthEstimator) :
    BandwidthEstimator :=
  { e with fastEWMA := EWMA.new c.fastEma,
           slowEWMA := EWMA.new c.slowEma,
           bytesSampled := 0 }

/-- A sample configuration with the library defaults
(`ABR_MINIMUM_TOTAL_BYTES = 150000`, `ABR_MINIMUM_CHUNK_SIZE = 16000`),
used for concrete evaluations. -/
def cexConfig : BandwidthEstimatorConfig :=
  { minTotalBytes := 150000, minChunkBytes := 16000, fastEma := 2, slowEma := 10 }

/-- A concrete stand-in for the abstracted `Math.pow`; the evaluations that
use it never reach an EWMA update, so its value is irrelevant. -/
def zeroPow : ℚ → ℚ → ℚ := fun _ _ => 0

/-- Estimator state after three accepted low-latency chunk samples of 1000
bytes over 1000 ms each (each below `ABR_MINIMUM_CHUNK_SIZE`, so the EWMAs
and `bytesSampled` are untouched while the chunk buffer fills up). -/
def c1State : BandwidthEstimator :=
  ((((BandwidthEstimator.new cexConfig true).addSample cexConfig zeroPow 1000 1000
      true).addSample cexConfig zeroPow 1000 1000 true).addSample cexConfig zeroPow
    1000 1000 true)

/-- Low-latency estimator whose chunk buffer holds three entries of 4 Mbps. -/
def c2State : BandwidthEstimator :=
  { fastEWMA := EWMA.new 2, slowEWMA := EWMA.new 10, bytesSampled := 0,
    lowLatencyMode := true, lowLatencyBandwidthBuffer := [4000000, 4000000, 4000000] }

/-- Low-latency estimator whose chunk buffer holds three entries of 0 bps. -/
def c2ZeroState : BandwidthEstimator :=
  { fastEWMA := EWMA.new 2, slowEWMA := EWMA.new 10, bytesSampled := 0,
    lowLatencyMode := true, lowLatencyBandwidthBuffer := [0, 0, 0] }

/-- The player state constants `PLAYER_STOPPED`, ..., `PLAYER_SEEKING`. -/
inductive PlayerStateTag where
  | STOPPED | LOADING | LOADED | PLAYING | PAUSED | ENDED | BUFFERING | SEEKING
deriving DecidableEq

/-- The manifest object, reduced to the attribute the embedded methods read. -/
structure Manifest where
  isLive : Bool
deriving DecidableEq

/-- A representation, reduced to its bitrate. -/
structure Representation where
  bitrate : ℚ
deriving DecidableEq

/-- An adaptation, reduced to `getAvailableBitrates()`. -/
structure Adaptation where
  availableBitrates : List ℚ
deriving DecidableEq

/-- An opaque error object carried by the error paths. -/
structure StreamError where
  code : ℕ
deriving DecidableEq

/-- JavaScript exceptions thrown by the embedded methods: a `TypeError`
from dereferencing a null field, or an `assert` failure with its message. -/
inductive JsError where
  | typeError
  | assertionError (message : String)
deriving DecidableEq

/-- The buffer types used by the stream events. -/
inductive BufferType where
  | video | audio | text | image
deriving DecidableEq

/-- Payload of a `"buffer"` stream event, as destructured by
`_onBufferNext`. -/
structure BufferEvt where
  bufferType : BufferType
  adaptation : Option Adaptation
  representation : Option Representation
deriving DecidableEq

/-- The `streamInfos` values dispatched by `_onStreamNext`; `other` stands
for every `type` the switch statement ignores (for example `"stalled"` and
`"loaded"`). -/
inductive StreamInfos where
  | buffer (value : BufferEvt)
  | manifest (manifest : Manifest)
  | manifestUpdate (manifest : Manifest)
  | pipeline (isImage : Bool)
  | other
deriving DecidableEq

/-- Payloads pushed on the legacy `_stream$` bus. -/
inductive StreamMsg where
  | infos (i : StreamInfos)
  | warning (e : StreamError)
  | fatal (e : StreamError)
  | ended
deriving DecidableEq

/-- Observable emissions of the player: `trigger`ed events and `next`
calls on the internal subjects, in program order. -/
inductive OutEvent where
  | playerStateChange (s : PlayerStateTag)
  | errorEvt (e : StreamError)
  | warningEvt (e : StreamError)
  | videoBitrateChange (v : ℚ)
  | audioBitrateChange (v : ℚ)
  | manifestChange (m : Manifest)
  | manifestUpdateEvt (m : Manifest)
  | progressEvt
  | imageTrackUpdate
  | imageTrackNext (hasValue : Bool)
  | clearLoadedNext
  | clearLoadedComplete
  | playingNext (autoPlay : Bool)
  | currentTimeChange
  | streamBusNext (m : StreamMsg)
deriving DecidableEq

/-- The `_recordedEvents` store. The only `_recordState` call sites in the
source use the types `"videoBitrate"` and `"audioBitrate"`, so the map is
embedded as these two optional cells (`none` is the initial `undefined`). -/
structure RecordedEvents where
  videoBitrate : Option ℚ
  audioBitrate : Option ℚ
deriving DecidableEq

/-- The per-buffer-type maps `_currentRepresentations` and
`_currentAdaptations` (whose keys are `video`, `audio`, `text`, `images`). -/
structure PerBufferType (α : Type) where
  video : Option α
  audio : Option α
  text : Option α
  images : Option α
deriving DecidableEq

/-- Modelled from the spec: the `Adaptive` ABR manager module is not among
the provided sources. It stores, per track type, the manually pinned
bitrate and the maximum-bitrate ceiling set through the API (`none` when
never set). -/
structure AbrState where
  manualVideoBitrate : Option ℚ
  manualAudioBitrate : Option ℚ
  maxVideoBitrate : Option ℚ
  maxAudioBitrate : Option ℚ
deriving DecidableEq

/-- The mutable fields of a `Player` instance that the embedded methods
read or write. Subjects and subsystem references that `dispose` sets to
`null` are `Bool` presence flags (`true` = non-null); the ABR manager also
carries the stored setter values, so it is an `Option AbrState`. -/
structure PState where
  state : PlayerStateTag
  manifest : Option Manifest
  languageManager : Bool
  fatalError : Option StreamError
  recordedEvents : RecordedEvents
  currentRepresentations : PerBufferType Representation
  currentAdaptations : PerBufferType Adaptation
  currentImagePlaylist : Bool
  tfStart : Option ℚ
  tfEnd : Option ℚ
  clearLoaded : Bool
  stream : Bool
  metrics : Bool
  errorStream : Bool
  fullscreenSub : Bool
  createPipelines : Bool
  videoElement : Bool
  abrManager : Option AbrState
deriving DecidableEq

/-- `_resetContentState()`: clears every state field relative to the
playing content and pushes `null` on `_imageTrack$`. -/
def Player.resetContentState (s : PState) : PState × List OutEvent :=
  ({ s with manifest := none,
            languageManager := false,
            currentRepresentations := ⟨none, none, none, none⟩,
            currentAdaptations := ⟨none, none, none, none⟩,
            recordedEvents := ⟨none, none⟩,
            tfStart := none, tfEnd := none,
            fatalError := none,
            currentImagePlaylist := false },
   [.imageTrackNext false])

/-- `_setPlayerState(s)`: updates `state` and triggers
`playerStateChange` only when the value changes. -/
def Player.setPlayerState (s : PState) (tag : PlayerStateTag) : PState × List OutEvent :=
  if s.state = tag then (s, []) else ({ s with state := tag }, [.playerStateChange tag])

/-- `stop()`: a no-op when the state is already `STOPPED`; otherwise
resets the content state, pushes on `_clearLoaded$` and transitions to
`STOPPED`. Pushing on a null `_clearLoaded$` would throw. -/
def Player.stop (s : PState) : Except JsError (PState × List OutEvent) :=
  if s.state = PlayerStateTag.STOPPED then .ok (s, [])
  else
    let (s1, ev1) := Player.resetContentState s
    if s1.clearLoaded then
      let (s2, ev2) := Player.setPlayerState s1 PlayerStateTag.STOPPED
      .ok (s2, ev1 ++ [.clearLoadedNext] ++ ev2)
    else .error .typeError

/-- `dispose()`: stops the player, completes `_clearLoaded$`, unsubscribes
the internal subjects, then sets all of these references (and
`_createPipelines`, `videoElement`) to `null`. Each dereference throws a
`TypeError` when the reference already is `null`. -/
def Player.dispose (s : PState) : Except JsError (PState × List OutEvent) :=
  match Player.stop s with
  | .error e => .error e
  | .ok (s1, ev1) =>
    if s1.clearLoaded then
      if s1.metrics then
        match s1.abrManager with
        | none => .error .typeError
        | some _ =>
          if s1.fullscreenSub then
            if s1.stream then
              if s1.errorStream then
                .ok ({ s1 with clearLoaded := false, metrics := false,
                               abrManager := none, fullscreenSub := false,
                               stream := false, errorStream := false,
                               createPipelines := false, videoElement := false },
                     ev1 ++ [.clearLoadedComplete])
              else .error .typeError
            else .error .typeError
          else .error .typeError
      else .error .typeError
    else .error .typeError

/-- `_recordState("videoBitrate", value)`: store and trigger
`videoBitrateChange` only when the value differs from the recorded one. -/
def Player.recordVideoBitrate (s : PState) (value : ℚ) : PState × List OutEvent :=
  if s.recordedEvents.videoBitrate = some value then (s, [])
  else ({ s with recordedEvents := { s.recordedEvents with videoBitrate := some value } },
        [.videoBitrateChange value])

/-- `_recordState("audioBitrate", value)`: store and trigger
`audioBitrateChange` only when the value differs from the recorded one. -/
def Player.recordAudioBitrate (s : PState) (value : ℚ) : PState × List OutEvent :=
  if s.recordedEvents.audioBitrate = some value then (s, [])
  else ({ s with recordedEvents := { s.recordedEvents with audioBitrate := some value } },
        [.audioBitrateChange value])

/-- The update of `_currentRepresentations[bufferType]` and
`_currentAdaptations[bufferType]` performed by `_onBufferNext`. -/
def Player.updateCurrents (s : PState) (v : BufferEvt) : PState :=
  match v.bufferType with
  | .video =>
      { s with
        currentRepresentations := { s.currentRepresentations with video := v.representation },
        currentAdaptations := { s.currentAdaptations with video := v.adaptation } }
  | .audio =>
      { s with
        currentRepresentations := { s.currentRepresentations with audio := v.representation },
        currentAdaptations := { s.currentAdaptations with audio := v.adaptation } }
  | .text =>
      { s with
        currentRepresentations := { s.currentRepresentations with text := v.representation },
        currentAdaptations := { s.currentAdaptations with text := v.adaptation } }
  | .image =>
      { s with
        currentRepresentations := { s.currentRepresentations with images := v.representation },
        currentAdaptations := { s.currentAdaptations with images := v.adaptation } }

/-- The JavaScript expression `representation && representation.bitrate || -1`:
`-1` when the representation is null or its bitrate is falsy (zero). -/
def bitrateOrNeg (r : Option Representation) : ℚ :=
  match r with
  | some rep => if rep.bitrate = 0 then -1 else rep.bitrate
  | none => -1

/-- `_onBufferNext({bufferType, adaptation, representation})`. -/
def Player.onBufferNext (s : PState) (v : BufferEvt) : PState × List OutEvent :=
  let s1 := Player.updateCurrents s v
  match v.bufferType with
  | .video => Player.recordVideoBitrate s1 (bitrateOrNeg v.representation)
  | .audio => Player.recordAudioBitrate s1 (bitrateOrNeg v.representation)
  | .text => (s1, [])
  | .image => (s1, [])

/-- `_onManifestNext`: store the manifest and language manager, trigger
`manifestChange` and install the track subscriptions. -/
def Player.onManifestNext (s : PState) (m : Manifest) : PState × List OutEvent :=
  ({ s with manifest := some m, languageManager := true }, [.manifestChange m])

/-- `_onManifestUpdateNext`: store the manifest and trigger
`manifestUpdate`. -/
def Player.onManifestUpdateNext (s : PState) (m : Manifest) : PState × List OutEvent :=
  ({ s with manifest := some m }, [.manifestUpdateEvt m])

/-- The `switch` statement of `_onStreamNext`: dispatch on the event type;
a `"pipeline"` event triggers `progress`, and additionally updates the
image playlist for an image buffer. -/
def Player.handleStreamInfos (s : PState) (i : StreamInfos) : PState × List OutEvent :=
  match i with
  | .buffer v => Player.onBufferNext s v
  | .manifest m => Player.onManifestNext s m
  | .manifestUpdate m => Player.onManifestUpdateNext s m
  | .pipeline isImage =>
      if isImage then
        ({ s with currentImagePlaylist := true },
         [.progressEvt, .imageTrackUpdate, .imageTrackNext true])
      else (s, [.progressEvt])
  | .other => (s, [])

/-- `_onStreamNext(streamInfos)`: handle the event, then perform the
guarded `next` on `_stream$` followed by the unguarded one; with the
subject non-null both fire, with it null the unguarded call throws. -/
def Player.onStreamNext (s : PState) (i : StreamInfos) :
    Except JsError (PState × List OutEvent) :=
  let (s1, ev1) := Player.handleStreamInfos s i
  if s1.stream then
    .ok (s1, ev1 ++ [.streamBusNext (.infos i), .streamBusNext (.infos i)])
  else .error .typeError

/-- `_onErrorStreamNext(error)`: trigger a `warning`, then the guarded and
unguarded `next` pair on `_stream$`. -/
def Player.onErrorStreamNext (s : PState) (error : StreamError) :
    Except JsError (PState × List OutEvent) :=
  if s.stream then
    .ok (s, [.warningEvt error, .streamBusNext (.warning error),
             .streamBusNext (.warning error)])
  else .error .typeError

/-- `_onStreamError(error)`: reset the content state, store the fatal
error, transition to `STOPPED`, push on `_clearLoaded$`, trigger `error`,
then the guarded and unguarded `next` pair on `_stream$`. -/
def Player.onStreamError (s : PState) (error : StreamError) :
    Except JsError (PState × List OutEvent) :=
  let (s1, ev1) := Player.resetContentState s
  let s2 := { s1 with fatalError := some error }
  let (s3, ev3) := Player.setPlayerState s2 PlayerStateTag.STOPPED
  if s3.clearLoaded then
    if s3.stream then
      .ok (s3, ev1 ++ ev3 ++ [.clearLoadedNext, .errorEvt error,
                              .streamBusNext (.fatal error), .streamBusNext (.fatal error)])
    else .error .typeError
  else .error .typeError

/-- `_onStreamComplete()`: reset the content state, transition to `ENDED`,
push on `_clearLoaded$`, then the guarded and unguarded `next` pair on
`_stream$`. -/
def Player.onStreamComplete (s : PState) : Except JsError (PState × List OutEvent) :=
  let (s1, ev1) := Player.resetContentState s
  let (s2, ev2) := Player.setPlayerState s1 PlayerStateTag.ENDED
  if s2.clearLoaded then
    if s2.stream then
      .ok (s2, ev1 ++ ev2 ++ [.clearLoadedNext, .streamBusNext .ended, .streamBusNext .ended])
    else .error .typeError
  else .error .typeError

/-- `getError()`: the stored fatal error, `null` otherwise. -/
def Player.getError (s : PState) : Option StreamError := s.fatalError

/-- `assertManifest(player)`: throws when no manifest is loaded. -/
def Player.assertManifest (s : PState) : Except JsError Unit :=
  if s.manifest.isSome then .ok ()
  else .error (.assertionError "player: no manifest loaded")

/-- `getAvailableVideoBitrates()`. -/
def Player.getAvailableVideoBitrates (s : PState) : List ℚ :=
  match s.currentAdaptations.video with
  | some ad => ad.availableBitrates
  | none => []

/-- `getAvailableAudioBitrates()`. -/
def Player.getAvailableAudioBitrates (s : PState) : List ℚ :=
  match s.currentAdaptations.audio with
  | some ad => ad.availableBitrates
  | none => []

/-- `setVideoBitrate(btr)`: asserts a loaded manifest, asserts the bitrate
is `0` or available, then stores the pin in the ABR manager. -/
def Player.setVideoBitrate (s : PState) (btr : ℚ) : Except JsError PState :=
  match Player.assertManifest s with
  | .error e => .error e
  | .ok _ =>
    if btr = 0 ∨ btr ∈ Player.getAvailableVideoBitrates s then
      match s.abrManager with
      | some a => .ok { s with abrManager := some { a with manualVideoBitrate := some btr } }
      | none => .error .typeError
    else .error (.assertionError "player: video bitrate unavailable")

/-- `setAudioBitrate(btr)`: asserts a loaded manifest, asserts the bitrate
is `0` or available, then stores the pin in the ABR manager. -/
def Player.setAudioBitrate (s : PState) (btr : ℚ) : Except JsError PState :=
  match Player.assertManifest s with
  | .error e => .error e
  | .ok _ =>
    if btr = 0 ∨ btr ∈ Player.getAvailableAudioBitrates s then
      match s.abrManager with
      | some a => .ok { s with abrManager := some { a with manualAudioBitrate := some btr } }
      | none => .error .typeError
    else .error (.assertionError "player: audio bitrate unavailable")

/-- `setMaxVideoBitrate(btr)`: stores the ceiling in the ABR manager, with
no manifest assertion. -/
def Player.setMaxVideoBitrate (s : PState) (btr : ℚ) : Except JsError PState :=
  match s.abrManager with
  | some a => .ok { s with abrManager := some { a with maxVideoBitrate := some btr } }
  | none => .error .typeError

/-- `setMaxAudioBitrate(btr)`: stores the ceiling in the ABR manager, with
no manifest assertion. -/
def Player.setMaxAudioBitrate (s : PState) (btr : ℚ) : Except JsError PState :=
  match s.abrManager with
  | some a => .ok { s with abrManager := some { a with maxAudioBitrate := some btr } }
  | none => .error .typeError

/-- The `loadVideo` options the embedded synchronous prefix reads. -/
structure LoadOptions where
  autoPlay : Bool
  tfStart : Option ℚ
  tfEnd : Option ℚ
deriving DecidableEq

/-- The synchronous state effects of `loadVideo(options)`: `stop()`, store
the time fragment, push `autoPlay` on `_playing$`, build the pipelines
(throwing when `_createPipelines` is null), let the `stateChanges`
subscription emit the initial `LOADING` state, and fire the initial
`_triggerTimeChange()`. Stream events arrive asynchronously afterwards
through the `_onStream*` handlers embedded above. -/
def Player.loadVideo (s : PState) (opts : LoadOptions) :
    Except JsError (PState × List OutEvent) :=
  match Player.stop s with
  | .error e => .error e
  | .ok (s1, ev1) =>
    let s2 := { s1 with tfStart := opts.tfStart, tfEnd := opts.tfEnd }
    if s2.createPipelines then
      let (s3, ev3) := Player.setPlayerState s2 PlayerStateTag.LOADING
      .ok (s3, ev1 ++ [.playingNext opts.autoPlay] ++ ev3 ++ [.currentTimeChange])
    else .error .typeError

/-- Repeated delivery of buffer events to `_onBufferNext`, accumulating the
emitted events. -/
def Player.processBufferEvents : PState → List BufferEvt → PState × List OutEvent
  | s, [] => (s, [])
  | s, v :: rest =>
    let (s1, ev1) := Player.onBufferNext s v
    let (s2, ev2) := Player.processBufferEvents s1 rest
    (s2, ev1 ++ ev2)

/-- The values carried by the `videoBitrateChange` events of a trace. -/
def videoBitrateEmissions (ev : List OutEvent) : List ℚ :=
  ev.filterMap fun e => match e with | .videoBitrateChange v => some v | _ => none

/-- The values carried by the `audioBitrateChange` events of a trace. -/
def audioBitrateEmissions (ev : List OutEvent) : List ℚ :=
  ev.filterMap fun e => match e with | .audioBitrateChange v => some v | _ => none

/-- Holds when each value of the list differs from its predecessor, the
first differing from the given previously-recorded value. -/
def consecutiveDistinctFrom : Option ℚ → List ℚ → Bool
  | _, [] => true
  | prev, v :: rest => decide (some v ≠ prev) && consecutiveDistinctFrom (some v) rest

/-- Number of `next` calls a trace performs on `_stream$` with the given
payload. -/
def countStreamBusNext (ev : List OutEvent) (m : StreamMsg) : ℕ :=
  (ev.filter fun e => decide (e = OutEvent.streamBusNext m)).length

/-- The `_stream$` push count of a handler outcome: `none` when the
handler threw. -/
def streamBusCount (r : Except JsError (PState × List OutEvent)) (m : StreamMsg) :
    Option ℕ :=
  match r with
  | .ok (_, ev) => some (countStreamBusNext ev m)
  | .error _ => none

/-- The ABR manager state right after the `Player` constructor. -/
def initialAbr : AbrState := ⟨none, none, none, none⟩

/-- A `Player` instance right after its constructor ran
(`_setPlayerState(PLAYER_STOPPED)` then `_resetContentState()`). -/
def initialPlayer : PState :=
  { state := .STOPPED, manifest := none, languageManager := false, fatalError := none,
    recordedEvents := ⟨none, none⟩,
    currentRepresentations := ⟨none, none, none, none⟩,
    currentAdaptations := ⟨none, none, none, none⟩,
    currentImagePlaylist := false, tfStart := none, tfEnd := none,
    clearLoaded := true, stream := true, metrics := true, errorStream := true,
    fullscreenSub := true, createPipelines := true, videoElement := true,
    abrManager := some initialAbr }

/-- The player after one successful `dispose()`. -/
def disposedPlayer : PState :=
  { initialPlayer with clearLoaded := false, metrics := false, abrManager := none,
                       fullscreenSub := false, stream := false, errorStream := false,
                       createPipelines := false, videoElement := false }

/-- A fatal error used in concrete evaluations. -/
def c7Error : StreamError := ⟨42⟩

/-- A player with a live content loaded and playing. -/
def playingPlayer : PState :=
  { initialPlayer with state := .PLAYING, manifest := some ⟨true⟩, languageManager := true }

/-- The player right after a fatal stream error hit `playingPlayer`. -/
def c7AfterError : PState := { initialPlayer with fatalError := some c7Error }

/-- Plain `loadVideo` options. -/
def plainOpts : LoadOptions := ⟨false, none, none⟩

/-- The player after `loadVideo` was called again on `c7AfterError`. -/
def c7AfterLoad : PState := { c7AfterError with state := .LOADING }

/-- Claim C8: `reset()` replaces both the fast and slow EWMAs with fresh
ones and sets `bytesSampled` to 0, leaving the low-latency chunk buffer
and the `lowLatencyMode` flag exactly as they were. -/
theorem reset_rebuilds_ewmas_and_keeps_ring (c : BandwidthEstimatorConfig)
    (e : BandwidthEstimator) :
    (e.reset c).fastEWMA = EWMA.new c.fastEma ∧
    (e.reset c).slowEWMA = EWMA.new c.slowEma ∧
    (e.reset c).bytesSampled = 0 ∧
    (e.reset c).lowLatencyBandwidthBuffer = e.lowLatencyBandwidthBuffer ∧
    (e.reset c).lowLatencyMode = e.lowLatencyMode :=
  ⟨rfl, rfl, rfl, rfl, rfl⟩

/-- Claim C1, counterexample: after three low-latency chunk samples of
1000 bytes each, the cumulative bytes sampled are still below
`minTotalBytes`, yet `getEstimate(true)` already returns a value (the mean
of the full chunk ring), contradicting the claim that `getEstimate`
returns `undefined` whenever the cumulative bytes are below
`minTotalBytes`, including in low-latency mode with a full ring. -/
theorem getEstimate_defined_below_minTotalBytes :
    c1State.bytesSampled < cexConfig.minTotalBytes ∧
    c1State.getEstimate cexConfig zeroPow true ≠ none := by decide

/-- Claim C1, amended: while the cumulative bytes sampled are below
`minTotalBytes`, `getEstimate(serverMayLimit)` returns the low-latency
ring estimate (defined exactly when the ring is full) if the estimator is
in low-latency mode and `serverMayLimit` is set, and `undefined`
otherwise. -/
theorem getEstimate_below_minTotalBytes (c : BandwidthEstimatorConfig)
    (pow : ℚ → ℚ → ℚ) (e : BandwidthEstimator) (serverMayLimit : Bool)
    (h : e.bytesSampled < c.minTotalBytes) :
    e.getEstimate c pow serverMayLimit =
      if e.lowLatencyMode && serverMayLimit then e.getLowLatencyBandwidth else none := by
  unfold BandwidthEstimator.getEstimate
  simp only [if_pos h]
  cases hm : e.lowLatencyMode <;> cases hs : serverMayLimit <;> simp
  cases hg : e.getLowLatencyBandwidth <;> simp [hg]

/-- Claim C1, witness: a fresh non-low-latency estimator has sampled no
bytes and returns no estimate. -/
theorem getEstimate_below_minTotalBytes_witness :
    (BandwidthEstimator.new cexConfig false).bytesSampled < cexConfig.minTotalBytes ∧
    (BandwidthEstimator.new cexConfig false).getEstimate cexConfig zeroPow true = none :=
  ⟨by decide,
   getEstimate_below_minTotalBytes cexConfig zeroPow
     (BandwidthEstimator.new cexConfig false) true (by decide)⟩

/-- Claim C3: `getEstimate(serverMayLimit)` computes
`regular = bytesSampled < minTotalBytes ? undefined : min(fast, slow)`,
returns `regular` when low-latency mode is off or `serverMayLimit` is
false, and otherwise combines it with the chunk-ring mean (defined exactly
when the ring holds 3 entries, given the ring-size invariant) by taking
the max of the two when both exist, the defined one when only one does,
and `undefined` when neither does. -/
theorem getEstimate_characterization (c : BandwidthEstimatorConfig) (pow : ℚ → ℚ → ℚ)
    (e : BandwidthEstimator) (serverMayLimit : Bool)
    (hlen : e.lowLatencyBandwidthBuffer.length ≤ 3) :
    e.getEstimate c pow serverMayLimit =
      (let regular : Option ℚ :=
        if e.bytesSampled < c.minTotalBytes then none
        else some (min (e.fastEWMA.getEstimate pow) (e.slowEWMA.getEstimate pow))
      let lowLat : Option ℚ :=
        if e.lowLatencyBandwidthBuffer.length = 3 then
          some (e.lowLatencyBandwidthBuffer.sum / (e.lowLatencyBandwidthBuffer.length : ℚ))
        else none
      if e.lowLatencyMode = false ∨ serverMayLimit = false then regular
      else
        match regular, lowLat with
        | some r, some l => some (max r l)
        | some r, none => some r
        | none, some l => some l
        | none, none => none) := by
  have hll : e.getLowLatencyBandwidth =
      (if e.lowLatencyBandwidthBuffer.length = 3 then
        some (e.lowLatencyBandwidthBuffer.sum / (e.lowLatencyBandwidthBuffer.length : ℚ))
      else none) := by
    unfold BandwidthEstimator.getLowLatencyBandwidth
    by_cases h3 : e.lowLatencyBandwidthBuffer.length = 3
    · simp [h3]
    · have : e.lowLatencyBandwidthBuffer.length < 3 := by omega
      simp [this, h3]
  unfold BandwidthEstimator.getEstimate
  rw [hll]
  cases hm : e.lowLatencyMode <;> cases hs : serverMayLimit <;>
    by_cases hb : e.bytesSampled < c.minTotalBytes <;>
    by_cases h3 : e.lowLatencyBandwidthBuffer.length = 3 <;>
    simp [hb, h3, max_comm]

/-- Claim C3, witness: evaluated on a fresh non-low-latency estimator. -/
theorem getEstimate_characterization_witness :
    (BandwidthEstimator.new cexConfig false).lowLatencyBandwidthBuffer.length ≤ 3 ∧
    (BandwidthEstimator.new cexConfig false).getEstimate cexConfig zeroPow true = none :=
  ⟨by decide,
   getEstimate_characterization cexConfig zeroPow
     (BandwidthEstimator.new cexConfig false) true (by decide)⟩

/-- Unfolding lemma for `addSample` on a chunk sample in low-latency mode
when the ring mean is defined. -/
theorem addSample_chunk_step (c : BandwidthEstimatorConfig) (pow : ℚ → ℚ → ℚ)
    (e : BandwidthEstimator) (durationInMs numberOfBytes l : ℚ)
    (hmode : e.lowLatencyMode = true)
    (hll : e.getLowLatencyBandwidth = some l) :
    e.addSample c pow durationInMs numberOfBytes true =
      (if l * (8/10) < numberOfBytes * 8000 / durationInMs ∧
          numberOfBytes * 8000 / durationInMs ≤ l then e
       else BandwidthEstimator.sampleBandwidth c pow
              (e.pushBandwidth (numberOfBytes * 8000 / durationInMs))
              durationInMs numberOfBytes (numberOfBytes * 8000 / durationInMs)) := by
  unfold BandwidthEstimator.addSample
  rw [hmode, hll]
  rfl

/-- Claim C2, counterexample: with the chunk ring holding three entries of
bandwidth 0 and a chunk sample of 0 bytes, the whole estimator state is
left unchanged by `addSample` even though the rejection condition
`last * 0.8 < bw ≤ last` is false (the push re-produces the same ring and
the 0-byte sample is below `minChunkBytes`), so "state unchanged iff
`last * 0.8 < bw ≤ last`" fails at this input. -/
theorem addSample_unchanged_without_rejection :
    c2ZeroState.lowLatencyBandwidthBuffer.length = 3 ∧
    c2ZeroState.addSample cexConfig zeroPow 1000 0 true = c2ZeroState ∧
    ¬ ((c2ZeroState.lowLatencyBandwidthBuffer.sum /
          (c2ZeroState.lowLatencyBandwidthBuffer.length : ℚ)) * (8/10)
         < 0 * 8000 / 1000 ∧
       0 * 8000 / 1000
         ≤ c2ZeroState.lowLatencyBandwidthBuffer.sum /
             (c2ZeroState.lowLatencyBandwidthBuffer.length : ℚ)) := by
  have hbuf : c2ZeroState.lowLatencyBandwidthBuffer = [0, 0, 0] := rfl
  have h1 : c2ZeroState.getLowLatencyBandwidth = some 0 := by
    unfold BandwidthEstimator.getLowLatencyBandwidth
    rw [hbuf]
    norm_num
  have hzero : (0:ℚ) * 8000 / 1000 = 0 := by norm_num
  refine ⟨rfl, ?_, ?_⟩
  · have hstep := addSample_chunk_step cexConfig zeroPow c2ZeroState 1000 0 0 rfl h1
    have hc : ¬ ((0:ℚ) * (8/10) < 0 * 8000 / 1000 ∧
        (0:ℚ) * 8000 / 1000 ≤ 0) := by norm_num
    rw [hstep, if_neg hc]
    unfold BandwidthEstimator.sampleBandwidth
    rw [if_pos (show (0:ℚ) < cexConfig.minChunkBytes by norm_num [cexConfig])]
    unfold BandwidthEstimator.pushBandwidth
    rw [hzero, hbuf]
    norm_num
    rfl
  · rw [hbuf, hzero]
    norm_num

/-- Claim C2, amended: for a chunk sample with positive byte count (and
positive duration) in low-latency mode with a full ring of mean `last`,
the estimator state is left entirely unchanged if and only if
`last * 0.8 < bw ≤ last` where `bw = bytes * 8000 / durationMs`; and when
the condition fails, `bw` is pushed onto the ring, dropping the oldest
entry to keep its length at 3. -/
theorem addSample_chunk_reject_iff (c : BandwidthEstimatorConfig) (pow : ℚ → ℚ → ℚ)
    (e : BandwidthEstimator) (durationInMs numberOfBytes : ℚ)
    (hmode : e.lowLatencyMode = true)
    (hlen : e.lowLatencyBandwidthBuffer.length = 3)
    (hdur : 0 < durationInMs) (hbytes : 0 < numberOfBytes) :
    ((e.addSample c pow durationInMs numberOfBytes true = e) ↔
      ((e.lowLatencyBandwidthBuffer.sum / (e.lowLatencyBandwidthBuffer.length : ℚ)) * (8/10)
          < numberOfBytes * 8000 / durationInMs ∧
        numberOfBytes * 8000 / durationInMs
          ≤ e.lowLatencyBandwidthBuffer.sum / (e.lowLatencyBandwidthBuffer.length : ℚ))) ∧
    (¬ ((e.lowLatencyBandwidthBuffer.sum / (e.lowLatencyBandwidthBuffer.length : ℚ)) * (8/10)
          < numberOfBytes * 8000 / durationInMs ∧
        numberOfBytes * 8000 / durationInMs
          ≤ e.lowLatencyBandwidthBuffer.sum / (e.lowLatencyBandwidthBuffer.length : ℚ)) →
      (e.addSample c pow durationInMs numberOfBytes true).lowLatencyBandwidthBuffer
        = e.lowLatencyBandwidthBuffer.drop 1 ++ [numberOfBytes * 8000 / durationInMs]) := by
  have hbwpos : 0 < numberOfBytes * 8000 / durationInMs :=
    div_pos (mul_pos hbytes (by norm_num)) hdur
  have hll : e.getLowLatencyBandwidth =
      some (e.lowLatencyBandwidthBuffer.sum / (e.lowLatencyBandwidthBuffer.length : ℚ)) := by
    unfold BandwidthEstimator.getLowLatencyBandwidth
    rw [hlen]
    norm_num
  have hadd := addSample_chunk_step c pow e durationInMs numberOfBytes
    (e.lowLatencyBandwidthBuffer.sum / (e.lowLatencyBandwidthBuffer.length : ℚ)) hmode hll
  obtain ⟨x, y, z, hbuf⟩ := List.length_eq_three.mp hlen
  have hpush : (e.pushBandwidth (numberOfBytes * 8000 / durationInMs)).lowLatencyBandwidthBuffer
      = [y, z, numberOfBytes * 8000 / durationInMs] := by
    simp [BandwidthEstimator.pushBandwidth, hbuf]
  have hsampbuf : ∀ e' : BandwidthEstimator,
      (BandwidthEstimator.sampleBandwidth c pow e' durationInMs numberOfBytes
        (numberOfBytes * 8000 / durationInMs)).lowLatencyBandwidthBuffer
        = e'.lowLatencyBandwidthBuffer := by
    intro e'
    unfold BandwidthEstimator.sampleBandwidth
    split <;> rfl
  by_cases hcond :
      (e.lowLatencyBandwidthBuffer.sum / (e.lowLatencyBandwidthBuffer.length : ℚ)) * (8/10)
        < numberOfBytes * 8000 / durationInMs ∧
      numberOfBytes * 8000 / durationInMs
        ≤ e.lowLatencyBandwidthBuffer.sum / (e.lowLatencyBandwidthBuffer.length : ℚ)
  · refine ⟨⟨fun _ => hcond, fun _ => ?_⟩, fun hn => absurd hcond hn⟩
    rw [hadd, if_pos hcond]
  · have hne : e.addSample c pow durationInMs numberOfBytes true ≠ e := by
      rw [hadd, if_neg hcond]
      intro heq
      by_cases hmin : numberOfBytes < c.minChunkBytes
      · have hbeq := congrArg BandwidthEstimator.lowLatencyBandwidthBuffer heq
        rw [hsampbuf, hpush, hbuf] at hbeq
        simp only [List.cons.injEq, and_true] at hbeq
        obtain ⟨hyx, hzy, hbwz⟩ := hbeq
        have hzbw : z = numberOfBytes * 8000 / durationInMs := hbwz.symm
        have hybw : y = numberOfBytes * 8000 / durationInMs := hzy.symm.trans hzbw
        have hxbw : x = numberOfBytes * 8000 / durationInMs := hyx.symm.trans hybw
        apply hcond
        have hsum : e.lowLatencyBandwidthBuffer.sum
            = 3 * (numberOfBytes * 8000 / durationInMs) := by
          rw [hbuf]
          simp only [List.sum_cons, List.sum_nil]
          rw [hxbw, hybw, hzbw]
          ring
        have hlastbw :
            e.lowLatencyBandwidthBuffer.sum / (e.lowLatencyBandwidthBuffer.length : ℚ)
              = numberOfBytes * 8000 / durationInMs := by
          rw [hsum, hlen]
          push_cast
          ring
        rw [hlastbw]
        exact ⟨by linarith, le_rfl⟩
      · have hbs := congrArg BandwidthEstimator.bytesSampled heq
        have hsampbytes : (BandwidthEstimator.sampleBandwidth c pow
            (e.pushBandwidth (numberOfBytes * 8000 / durationInMs)) durationInMs numberOfBytes
            (numberOfBytes * 8000 / durationInMs)).bytesSampled
            = e.bytesSampled + numberOfBytes := by
          unfold BandwidthEstimator.sampleBandwidth
          rw [if_neg hmin]
          rfl
        rw [hsampbytes] at hbs
        have hnb : numberOfBytes = 0 := by linarith
        exact absurd hnb (ne_of_gt hbytes)
    refine ⟨⟨fun heq => absurd heq hne, fun hc => absurd hc hcond⟩, fun _ => ?_⟩
    rw [hadd, if_neg hcond, hsampbuf, hpush, hbuf]
    rfl

/-- Claim C2, witness: the 3.6 Mbps chunk sample of the spec scenario is
rejected with the ring at three entries of 4 Mbps. -/
theorem addSample_chunk_reject_iff_witness :
    ((c2State.addSample cexConfig zeroPow 1000 450000 true = c2State) ↔
      ((c2State.lowLatencyBandwidthBuffer.sum /
          (c2State.lowLatencyBandwidthBuffer.length : ℚ)) * (8/10)
          < 450000 * 8000 / 1000 ∧
        (450000 : ℚ) * 8000 / 1000
          ≤ c2State.lowLatencyBandwidthBuffer.sum /
              (c2State.lowLatencyBandwidthBuffer.length : ℚ))) ∧
    (¬ ((c2State.lowLatencyBandwidthBuffer.sum /
          (c2State.lowLatencyBandwidthBuffer.length : ℚ)) * (8/10)
          < 450000 * 8000 / 1000 ∧
        (450000 : ℚ) * 8000 / 1000
          ≤ c2State.lowLatencyBandwidthBuffer.sum /
              (c2State.lowLatencyBandwidthBuffer.length : ℚ)) →
      (c2State.addSample cexConfig zeroPow 1000 450000 true).lowLatencyBandwidthBuffer
        = c2State.lowLatencyBandwidthBuffer.drop 1 ++ [(450000 : ℚ) * 8000 / 1000]) :=
  addSample_chunk_reject_iff cexConfig zeroPow c2State 1000 450000 rfl rfl
    (by norm_num) (by norm_num)

/-- A `stop()` from the `STOPPED` state returns the state unchanged with
no emission. -/
theorem stop_noop_of_stopped (u : PState) (hu : u.state = PlayerStateTag.STOPPED) :
    Player.stop u = .ok (u, []) := by
  unfold Player.stop
  rw [if_pos hu]

/-- Any successful `stop()` leaves the player in the `STOPPED` state. -/
theorem stop_ok_state {s t : PState} {ev : List OutEvent}
    (h : Player.stop s = .ok (t, ev)) : t.state = PlayerStateTag.STOPPED := by
  unfold Player.stop at h
  by_cases hs : s.state = PlayerStateTag.STOPPED
  · rw [if_pos hs] at h
    simp only [Except.ok.injEq, Prod.mk.injEq] at h
    rw [← h.1]
    exact hs
  · rw [if_neg hs] at h
    simp only [Player.resetContentState, Player.setPlayerState] at h
    by_cases hc : s.clearLoaded
    · simp only [hc, if_true] at h
      split at h <;>
        simp only [Except.ok.injEq, Prod.mk.injEq] at h <;>
        rw [← h.1]
      next hcond => exact hcond
    · simp only [hc, Bool.false_eq_true, if_false] at h
      cases h

/-- Inversion of a successful `dispose()`: the resulting state has a null
`_clearLoaded$` and is `STOPPED`. -/
theorem dispose_ok_inv {s t : PState} {ev : List OutEvent}
    (h : Player.dispose s = .ok (t, ev)) :
    t.clearLoaded = false ∧ t.state = PlayerStateTag.STOPPED := by
  unfold Player.dispose at h
  rcases hst : Player.stop s with he | ⟨s1, ev1⟩ <;> rw [hst] at h
  · simp at h
  · have hs1 := stop_ok_state hst
    simp only [] at h
    by_cases h1 : s1.clearLoaded = true
    swap
    · rw [if_neg h1] at h
      exact absurd h (by simp)
    rw [if_pos h1] at h
    by_cases h2 : s1.metrics = true
    swap
    · rw [if_neg h2] at h
      exact absurd h (by simp)
    rw [if_pos h2] at h
    rcases habr : s1.abrManager with _ | a <;> simp only [habr] at h
    · exact absurd h (by simp)
    by_cases h4 : s1.fullscreenSub = true
    swap
    · rw [if_neg h4] at h
      exact absurd h (by simp)
    rw [if_pos h4] at h
    by_cases h5 : s1.stream = true
    swap
    · rw [if_neg h5] at h
      exact absurd h (by simp)
    rw [if_pos h5] at h
    by_cases h6 : s1.errorStream = true
    swap
    · rw [if_neg h6] at h
      exact absurd h (by simp)
    rw [if_pos h6] at h
    simp only [Except.ok.injEq, Prod.mk.injEq] at h
    rw [← h.1]
    exact ⟨rfl, hs1⟩

/-- Claim C6: calling `stop()` while already `STOPPED` changes nothing and
emits nothing, and any successful `stop()` leaves a state from which a
second `stop()` is such a no-op. -/
theorem stop_idempotent (s : PState) :
    (s.state = PlayerStateTag.STOPPED → Player.stop s = .ok (s, [])) ∧
    (∀ t ev, Player.stop s = .ok (t, ev) → Player.stop t = .ok (t, [])) := by
  refine ⟨stop_noop_of_stopped s, ?_⟩
  intro t ev h
  exact stop_noop_of_stopped t (stop_ok_state h)

/-- Claim C6, witness: `stop()` on the freshly constructed (hence
`STOPPED`) player is a no-op. -/
theorem stop_idempotent_witness : Player.stop initialPlayer = .ok (initialPlayer, []) :=
  (stop_idempotent initialPlayer).1 rfl

/-- Claim C4, counterexample: the first `dispose()` succeeds and the second
one throws a `TypeError` (`_clearLoaded$` is `null`), so calling
`dispose()` twice does error. -/
theorem dispose_twice_throws :
    Player.dispose initialPlayer = .ok (disposedPlayer, [.clearLoadedComplete]) ∧
    Player.dispose disposedPlayer = .error .typeError := ⟨rfl, rfl⟩

/-- Claim C4, amended: after any successful `dispose()`, a second
`dispose()` always throws a `TypeError` instead of completing, because the
first call set `_clearLoaded$` to `null`. -/
theorem dispose_then_dispose_throws (s t : PState) (ev : List OutEvent)
    (h : Player.dispose s = .ok (t, ev)) :
    Player.dispose t = .error JsError.typeError := by
  obtain ⟨hcl, hst⟩ := dispose_ok_inv h
  unfold Player.dispose
  rw [stop_noop_of_stopped t hst]
  simp [hcl]

/-- Claim C4, witness: the amended claim evaluated on the freshly
constructed player. -/
theorem dispose_then_dispose_throws_witness :
    Player.dispose disposedPlayer = .error JsError.typeError :=
  dispose_then_dispose_throws initialPlayer disposedPlayer [.clearLoadedComplete] rfl

/-- Claim C5, counterexample: `setVideoBitrate(0)` on the freshly
constructed (hence `STOPPED`) player throws the `assertManifest` error
instead of succeeding, because no manifest is loaded while `STOPPED`. -/
theorem setVideoBitrate_throws_while_stopped :
    initialPlayer.state = PlayerStateTag.STOPPED ∧
    Player.setVideoBitrate initialPlayer 0 =
      .error (.assertionError "player: no manifest loaded") := ⟨rfl, rfl⟩

/-- Claim C5, amended: while the player is `STOPPED` (no manifest loaded),
`setVideoBitrate` and `setAudioBitrate` throw the `assertManifest` error;
the manifest-independent setters `setMaxVideoBitrate` and
`setMaxAudioBitrate` succeed and store the value in the ABR manager, and
the stored value survives the next `loadVideo`, which hands the same ABR
manager to the new stream. -/
theorem setters_while_stopped (s : PState) (a : AbrState) (b : ℚ) (opts : LoadOptions)
    (hstop : s.state = PlayerStateTag.STOPPED) (hman : s.manifest = none)
    (habr : s.abrManager = some a) (hcp : s.createPipelines = true) :
    Player.setVideoBitrate s b = .error (.assertionError "player: no manifest loaded") ∧
    Player.setAudioBitrate s b = .error (.assertionError "player: no manifest loaded") ∧
    Player.setMaxVideoBitrate s b =
      .ok { s with abrManager := some { a with maxVideoBitrate := some b } } ∧
    Player.setMaxAudioBitrate s b =
      .ok { s with abrManager := some { a with maxAudioBitrate := some b } } ∧
    Player.loadVideo { s with abrManager := some { a with maxVideoBitrate := some b } }
        opts =
      .ok ({ s with abrManager := some { a with maxVideoBitrate := some b },
                    tfStart := opts.tfStart, tfEnd := opts.tfEnd,
                    state := PlayerStateTag.LOADING },
           [.playingNext opts.autoPlay, .playerStateChange PlayerStateTag.LOADING,
            .currentTimeChange]) := by
  have hnl : ¬ s.state = PlayerStateTag.LOADING := by
    rw [hstop]
    intro hcontra
    cases hcontra
  refine ⟨?_, ?_, ?_, ?_, ?_⟩
  · unfold Player.setVideoBitrate Player.assertManifest
    rw [hman]
    rfl
  · unfold Player.setAudioBitrate Player.assertManifest
    rw [hman]
    rfl
  · unfold Player.setMaxVideoBitrate
    rw [habr]
  · unfold Player.setMaxAudioBitrate
    rw [habr]
  · unfold Player.loadVideo
    rw [stop_noop_of_stopped
      { s with abrManager := some { a with maxVideoBitrate := some b } } hstop]
    simp only []
    rw [if_pos hcp]
    unfold Player.setPlayerState
    rw [if_neg hnl]
    rfl

/-- Claim C5, witness: the amended claim evaluated on the freshly
constructed player with bitrate 1000. -/
theorem setters_while_stopped_witness :
    Player.setVideoBitrate initialPlayer 1000 =
      .error (.assertionError "player: no manifest loaded") ∧
    Player.setAudioBitrate initialPlayer 1000 =
      .error (.assertionError "player: no manifest loaded") ∧
    Player.setMaxVideoBitrate initialPlayer 1000 =
      .ok { initialPlayer with
            abrManager := some { initialAbr with maxVideoBitrate := some 1000 } } ∧
    Player.setMaxAudioBitrate initialPlayer 1000 =
      .ok { initialPlayer with
            abrManager := some { initialAbr with maxAudioBitrate := some 1000 } } ∧
    Player.loadVideo
        { initialPlayer with
          abrManager := some { initialAbr with maxVideoBitrate := some 1000 } }
        plainOpts =
      .ok ({ initialPlayer with
             abrManager := some { initialAbr with maxVideoBitrate := some 1000 },
             tfStart := plainOpts.tfStart, tfEnd := plainOpts.tfEnd,
             state := PlayerStateTag.LOADING },
           [.playingNext plainOpts.autoPlay,
            .playerStateChange PlayerStateTag.LOADING, .currentTimeChange]) :=
  setters_while_stopped initialPlayer initialAbr 1000 plainOpts rfl rfl rfl rfl

/-- Claim C7: a fatal stream error resets the content state, stores the
error, transitions to `STOPPED` and triggers `error`, and `getError()`
returns the stored error afterwards; but the next `loadVideo` does NOT
reset it to `null`: `stop()` is a no-op from `STOPPED`, so
`_resetContentState` never runs and `getError()` still returns the old
error after the load. -/
theorem fatal_error_survives_next_load :
    Player.onStreamError playingPlayer c7Error =
      .ok (c7AfterError,
           [.imageTrackNext false, .playerStateChange PlayerStateTag.STOPPED,
            .clearLoadedNext, .errorEvt c7Error,
            .streamBusNext (.fatal c7Error), .streamBusNext (.fatal c7Error)]) ∧
    c7AfterError.state = PlayerStateTag.STOPPED ∧
    Player.getError c7AfterError = some c7Error ∧
    Player.loadVideo c7AfterError plainOpts =
      .ok (c7AfterLoad,
           [.playingNext false, .playerStateChange PlayerStateTag.LOADING,
            .currentTimeChange]) ∧
    Player.getError c7AfterLoad = some c7Error :=
  ⟨rfl, rfl, rfl, rfl, rfl⟩

/-- Bus-push counting distributes over trace concatenation. -/
theorem countStreamBusNext_append (a b : List OutEvent) (m : StreamMsg) :
    countStreamBusNext (a ++ b) m = countStreamBusNext a m + countStreamBusNext b m := by
  simp [countStreamBusNext, List.filter_append]

/-- The guarded-plus-unguarded `next` pair pushes exactly twice. -/
theorem countStreamBusNext_pair (m : StreamMsg) :
    countStreamBusNext [.streamBusNext m, .streamBusNext m] m = 2 := by
  simp [countStreamBusNext]

/-- The `switch` part of `_onStreamNext` never pushes on `_stream$`. -/
theorem handleStreamInfos_no_bus (s : PState) (i : StreamInfos) (m : StreamMsg) :
    countStreamBusNext (Player.handleStreamInfos s i).2 m = 0 := by
  cases i with
  | buffer v =>
      rcases v with ⟨bt, ad, rep⟩
      cases bt <;>
        simp only [Player.handleStreamInfos, Player.onBufferNext, Player.updateCurrents,
          Player.recordVideoBitrate, Player.recordAudioBitrate] <;>
        first
          | (split <;> simp [countStreamBusNext])
          | simp [countStreamBusNext]
  | manifest m' => simp [Player.handleStreamInfos, Player.onManifestNext, countStreamBusNext]
  | manifestUpdate m' =>
      simp [Player.handleStreamInfos, Player.onManifestUpdateNext, countStreamBusNext]
  | pipeline isImage =>
      cases isImage <;> simp [Player.handleStreamInfos, countStreamBusNext]
  | other => simp [Player.handleStreamInfos, countStreamBusNext]

/-- The `switch` part of `_onStreamNext` never touches `_stream$`. -/
theorem handleStreamInfos_stream (s : PState) (i : StreamInfos) :
    (Player.handleStreamInfos s i).1.stream = s.stream := by
  cases i with
  | buffer v =>
      rcases v with ⟨bt, ad, rep⟩
      cases bt <;>
        simp only [Player.handleStreamInfos, Player.onBufferNext, Player.updateCurrents,
          Player.recordVideoBitrate, Player.recordAudioBitrate] <;>
        first
          | (split <;> rfl)
          | rfl
  | manifest m' => rfl
  | manifestUpdate m' => rfl
  | pipeline isImage => cases isImage <;> rfl
  | other => rfl

/-- Claim C9: every stream event handled by the player (regular stream
notification, non-fatal warning, fatal error, completion) is pushed on the
legacy `_stream$` bus exactly twice per occurrence when the subject is
non-null. -/
theorem streamBus_double_emit (s : PState) (i : StreamInfos) (er : StreamError)
    (hstream : s.stream = true) (hclear : s.clearLoaded = true) :
    streamBusCount (Player.onStreamNext s i) (.infos i) = some 2 ∧
    streamBusCount (Player.onErrorStreamNext s er) (.warning er) = some 2 ∧
    streamBusCount (Player.onStreamError s er) (.fatal er) = some 2 ∧
    streamBusCount (Player.onStreamComplete s) (.ended) = some 2 := by
  refine ⟨?_, ?_, ?_, ?_⟩
  · unfold Player.onStreamNext
    rcases hh : Player.handleStreamInfos s i with ⟨s1, ev1⟩
    have hs1 : s1.stream = true := by
      have hpr := handleStreamInfos_stream s i
      rw [hh] at hpr
      rw [← hstream]
      exact hpr
    have hev1 : countStreamBusNext ev1 (.infos i) = 0 := by
      have hnb := handleStreamInfos_no_bus s i (.infos i)
      rw [hh] at hnb
      exact hnb
    simp only [hs1, if_true]
    simp only [streamBusCount]
    rw [countStreamBusNext_append, hev1, countStreamBusNext_pair]
  · unfold Player.onErrorStreamNext
    rw [if_pos hstream]
    simp [streamBusCount, countStreamBusNext]
  · unfold Player.onStreamError Player.setPlayerState
    simp only [Player.resetContentState]
    by_cases hss : s.state = PlayerStateTag.STOPPED
    · rw [if_pos hss]
      simp only []
      rw [if_pos hclear, if_pos hstream]
      simp [streamBusCount, countStreamBusNext]
    · rw [if_neg hss]
      simp only []
      rw [if_pos hclear, if_pos hstream]
      simp [streamBusCount, countStreamBusNext]
  · unfold Player.onStreamComplete Player.setPlayerState
    simp only [Player.resetContentState]
    by_cases hss : s.state = PlayerStateTag.ENDED
    · rw [if_pos hss]
      simp only []
      rw [if_pos hclear, if_pos hstream]
      simp [streamBusCount, countStreamBusNext]
    · rw [if_neg hss]
      simp only []
      rw [if_pos hclear, if_pos hstream]
      simp [streamBusCount, countStreamBusNext]

/-- Claim C9, witness: the double emission evaluated on the fresh player. -/
theorem streamBus_double_emit_witness :
    streamBusCount (Player.onStreamNext initialPlayer .other)
      (.infos .other) = some 2 ∧
    streamBusCount (Player.onErrorStreamNext initialPlayer ⟨7⟩)
      (.warning ⟨7⟩) = some 2 ∧
    streamBusCount (Player.onStreamError initialPlayer ⟨7⟩)
      (.fatal ⟨7⟩) = some 2 ∧
    streamBusCount (Player.onStreamComplete initialPlayer) (.ended) = some 2 :=
  streamBus_double_emit initialPlayer .other ⟨7⟩ rfl rfl

/-- Emission extraction distributes over trace concatenation. -/
theorem videoBitrateEmissions_append (a b : List OutEvent) :
    videoBitrateEmissions (a ++ b) = videoBitrateEmissions a ++ videoBitrateEmissions b :=
  List.filterMap_append a b _

/-- Emission extraction distributes over trace concatenation. -/
theorem audioBitrateEmissions_append (a b : List OutEvent) :
    audioBitrateEmissions (a ++ b) = audioBitrateEmissions a ++ audioBitrateEmissions b :=
  List.filterMap_append a b _

/-- One `_onBufferNext` step either emits no `videoBitrateChange` and
keeps the recorded video bitrate, or emits exactly one value, records it,
and that value differs from the previously recorded one. -/
theorem onBufferNext_video_step (s : PState) (v : BufferEvt) :
    (videoBitrateEmissions (Player.onBufferNext s v).2 = [] ∧
     (Player.onBufferNext s v).1.recordedEvents.videoBitrate
       = s.recordedEvents.videoBitrate) ∨
    (∃ x, videoBitrateEmissions (Player.onBufferNext s v).2 = [x] ∧
      (Player.onBufferNext s v).1.recordedEvents.videoBitrate = some x ∧
      s.recordedEvents.videoBitrate ≠ some x) := by
  rcases v with ⟨bt, ad, rep⟩
  cases bt with
  | video =>
      simp only [Player.onBufferNext, Player.updateCurrents, Player.recordVideoBitrate]
      by_cases hprev : s.recordedEvents.videoBitrate = some (bitrateOrNeg rep)
      · left
        rw [if_pos hprev]
        exact ⟨rfl, rfl⟩
      · right
        refine ⟨bitrateOrNeg rep, ?_, ?_, hprev⟩
        · rw [if_neg hprev]
          simp [videoBitrateEmissions]
        · rw [if_neg hprev]
  | audio =>
      left
      simp only [Player.onBufferNext, Player.updateCurrents, Player.recordAudioBitrate]
      split <;> exact ⟨rfl, rfl⟩
  | text => exact Or.inl ⟨rfl, rfl⟩
  | image => exact Or.inl ⟨rfl, rfl⟩

/-- One `_onBufferNext` step either emits no `audioBitrateChange` and
keeps the recorded audio bitrate, or emits exactly one value, records it,
and that value differs from the previously recorded one. -/
theorem onBufferNext_audio_step (s : PState) (v : BufferEvt) :
    (audioBitrateEmissions (Player.onBufferNext s v).2 = [] ∧
     (Player.onBufferNext s v).1.recordedEvents.audioBitrate
       = s.recordedEvents.audioBitrate) ∨
    (∃ x, audioBitrateEmissions (Player.onBufferNext s v).2 = [x] ∧
      (Player.onBufferNext s v).1.recordedEvents.audioBitrate = some x ∧
      s.recordedEvents.audioBitrate ≠ some x) := by
  rcases v with ⟨bt, ad, rep⟩
  cases bt with
  | audio =>
      simp only [Player.onBufferNext, Player.updateCurrents, Player.recordAudioBitrate]
      by_cases hprev : s.recordedEvents.audioBitrate = some (bitrateOrNeg rep)
      · left
        rw [if_pos hprev]
        exact ⟨rfl, rfl⟩
      · right
        refine ⟨bitrateOrNeg rep, ?_, ?_, hprev⟩
        · rw [if_neg hprev]
          simp [audioBitrateEmissions]
        · rw [if_neg hprev]
  | video =>
      left
      simp only [Player.onBufferNext, Player.updateCurrents, Player.recordVideoBitrate]
      split <;> exact ⟨rfl, rfl⟩
  | text => exact Or.inl ⟨rfl, rfl⟩
  | image => exact Or.inl ⟨rfl, rfl⟩

/-- Along any buffer-event trace, the emitted `videoBitrateChange` values
form a chain in which each value differs from the recorded value that
preceded it. -/
theorem processBufferEvents_video_chain (l : List BufferEvt) : ∀ s : PState,
    consecutiveDistinctFrom s.recordedEvents.videoBitrate
      (videoBitrateEmissions (Player.processBufferEvents s l).2) = true := by
  induction l with
  | nil =>
      intro s
      simp [Player.processBufferEvents, videoBitrateEmissions, consecutiveDistinctFrom]
  | cons v rest ih =>
      intro s
      rcases h1 : Player.onBufferNext s v with ⟨s1, ev1⟩
      rcases h2 : Player.processBufferEvents s1 rest with ⟨s2, ev2⟩
      have hstep := onBufferNext_video_step s v
      rw [h1] at hstep
      have htail := ih s1
      rw [h2] at htail
      simp only [Player.processBufferEvents, h1, h2]
      rw [videoBitrateEmissions_append]
      rcases hstep with ⟨hev, hrec⟩ | ⟨x, hev, hrec, hne⟩
      · rw [hev]
        simp only [List.nil_append]
        rw [← hrec]
        exact htail
      · rw [hev]
        simp only [List.cons_append, List.nil_append]
        simp only [consecutiveDistinctFrom, Bool.and_eq_true, decide_eq_true_eq]
        refine ⟨fun hcontra => hne (by rw [hcontra]), ?_⟩
        rw [← hrec]
        exact htail

/-- Along any buffer-event trace, the emitted `audioBitrateChange` values
form a chain in which each value differs from the recorded value that
preceded it. -/
theorem processBufferEvents_audio_chain (l : List BufferEvt) : ∀ s : PState,
    consecutiveDistinctFrom s.recordedEvents.audioBitrate
      (audioBitrateEmissions (Player.processBufferEvents s l).2) = true := by
  induction l with
  | nil =>
      intro s
      simp [Player.processBufferEvents, audioBitrateEmissions, consecutiveDistinctFrom]
  | cons v rest ih =>
      intro s
      rcases h1 : Player.onBufferNext s v with ⟨s1, ev1⟩
      rcases h2 : Player.processBufferEvents s1 rest with ⟨s2, ev2⟩
      have hstep := onBufferNext_audio_step s v
      rw [h1] at hstep
      have htail := ih s1
      rw [h2] at htail
      simp only [Player.processBufferEvents, h1, h2]
      rw [audioBitrateEmissions_append]
      rcases hstep with ⟨hev, hrec⟩ | ⟨x, hev, hrec, hne⟩
      · rw [hev]
        simp only [List.nil_append]
        rw [← hrec]
        exact htail
      · rw [hev]
        simp only [List.cons_append, List.nil_append]
        simp only [consecutiveDistinctFrom, Bool.and_eq_true, decide_eq_true_eq]
        refine ⟨fun hcontra => hne (by rw [hcontra]), ?_⟩
        rw [← hrec]
        exact htail

/-- A chain that also differs from its seed has pairwise-distinct
consecutive elements. -/
theorem consecutiveDistinctFrom_chain {l : List ℚ} :
    ∀ prev, consecutiveDistinctFrom prev l = true →
      List.Chain' (fun a b => a ≠ b) l := by
  induction l with
  | nil =>
      intro prev _
      simp
  | cons v rest ih =>
      intro prev h
      simp only [consecutiveDistinctFrom, Bool.and_eq_true, decide_eq_true_eq] at h
      have hrest := ih (some v) h.2
      cases rest with
      | nil => simp
      | cons w rest2 =>
          refine List.chain'_cons.mpr ⟨?_, hrest⟩
          have h2 := h.2
          simp only [consecutiveDistinctFrom, Bool.and_eq_true, decide_eq_true_eq] at h2
          exact fun hvw => h2.1 (by rw [hvw])

/-- Claim C10: along every buffer-event trace, a `videoBitrateChange`
(resp. `audioBitrateChange`) event is emitted only when its value differs
from the previously recorded one, so two consecutive emissions of the same
change event always carry different values. -/
theorem bitrateChange_values_distinct (s : PState) (l : List BufferEvt) :
    consecutiveDistinctFrom s.recordedEvents.videoBitrate
      (videoBitrateEmissions (Player.processBufferEvents s l).2) = true ∧
    consecutiveDistinctFrom s.recordedEvents.audioBitrate
      (audioBitrateEmissions (Player.processBufferEvents s l).2) = true ∧
    List.Chain' (fun a b => a ≠ b)
      (videoBitrateEmissions (Player.processBufferEvents s l).2) ∧
    List.Chain' (fun a b => a ≠ b)
      (audioBitrateEmissions (Player.processBufferEvents s l).2) := by
  have hv := processBufferEvents_video_chain l s
  have ha := processBufferEvents_audio_chain l s
  exact ⟨hv, ha, consecutiveDistinctFrom_chain _ hv, consecutiveDistinctFrom_chain _ ha⟩

end RxPlayer
